import Mathlib

/-!
Shallow embedding of pyFaceCam (src/main.py): the shared configuration
dictionary and its HTTP update handler, the camera enumeration probe, and
the per-frame state machine of `camera_loop` (face-estimate smoothing and
square-crop planning).  Python real arithmetic is modelled exactly over the
rationals; JSON values are modelled by the inductive `JVal`.  Numeric
strings are converted the way Python `int()` / `float()` convert them,
per the ASCII decimal grammar (optional surrounding whitespace, optional
sign, digit runs with underscore grouping, and for floats an optional
fraction and exponent); unicode digits and whitespace, and the non-finite
spellings `inf` / `infinity` / `nan`, are outside the modelled domain.
-/

set_option autoImplicit false

/-- JSON-like values as stored in the configuration dictionary and as
submitted in update payloads. -/
inductive JVal where
  | jint (n : ℤ)
  | jnum (q : ℚ)
  | jstr (s : String)
  | jbool (b : Bool)
  | jnull
deriving DecidableEq

/-- The shared configuration dictionary (src/main.py lines 34-40): five
fixed keys, each holding an arbitrary value (the store itself never
validates what is put in). -/
structure ConfigDict where
  camera_index : JVal
  orientation : JVal
  detection_every_n_frames : JVal
  smoothing_alpha : JVal
  margin_factor : JVal
deriving DecidableEq

/-- The five recognized configuration keys. -/
def CONFIG_KEYS : List String :=
  ["camera_index", "orientation", "detection_every_n_frames",
   "smoothing_alpha", "margin_factor"]

/-- One iteration of the dictionary-update loop body
`if k in config: config[k] = v` (lines 60-62 and 89-91). -/
def setKey (c : ConfigDict) (k : String) (v : JVal) : ConfigDict :=
  if k = "camera_index" then { c with camera_index := v }
  else if k = "orientation" then { c with orientation := v }
  else if k = "detection_every_n_frames" then { c with detection_every_n_frames := v }
  else if k = "smoothing_alpha" then { c with smoothing_alpha := v }
  else if k = "margin_factor" then { c with margin_factor := v }
  else c

/-- `update_config` (lines 87-93): for each submitted key-value pair, store
the value verbatim when the key is one of the five configuration keys. -/
def update_config (changes : List (String × JVal)) (c : ConfigDict) : ConfigDict :=
  changes.foldl (fun c kv => setKey c kv.1 kv.2) c

/-- `persist_config` (lines 72-79): the JSON record written to disk is
exactly the five key-value pairs of the dictionary. -/
def persist_config (c : ConfigDict) : List (String × JVal) :=
  [("camera_index", c.camera_index),
   ("orientation", c.orientation),
   ("detection_every_n_frames", c.detection_every_n_frames),
   ("smoothing_alpha", c.smoothing_alpha),
   ("margin_factor", c.margin_factor)]

/-- Python equality test `x == 0` on a stored JSON value (`False == 0` and
`0.0 == 0` are both true in Python). -/
def pyEqZero : JVal → Bool
  | .jint n => n == 0
  | .jnum q => q == 0
  | .jbool b => !b
  | _ => false

/-- `load_persisted_config` (lines 50-69): merge the persisted pairs over
the current dictionary with the same key-filtering loop as `update_config`,
then, on Linux, clear a merged camera index equal to `0` (the v4l2loopback
output device). -/
def load_persisted_config (isLinux : Bool) (data : List (String × JVal))
    (c : ConfigDict) : ConfigDict :=
  let m := update_config data c
  if isLinux && pyEqZero m.camera_index then { m with camera_index := .jnull } else m

/-- `list_cameras` (lines 102-143).  `openOk i` models
`cv2.VideoCapture(i).isOpened()` and `readOk i` a successful `cap.read()`.
On Linux the probe range starts at 1 (index 0 is the loopback output); the
currently selected index is assumed usable without probing, and is appended
at the end if probing did not add it. -/
def list_cameras (isLinux : Bool) (max_index : ℕ) (current : Option ℤ)
    (openOk readOk : ℕ → Bool) : List ℤ :=
  let start := if isLinux then 1 else 0
  let cams := (List.range' start (max_index - start)).foldl
    (fun (cams : List ℤ) (i : ℕ) =>
      if current = some (i : ℤ) then
        (if (i : ℤ) ∈ cams then cams else cams ++ [(i : ℤ)])
      else if openOk i && readOk i then cams ++ [(i : ℤ)]
      else cams)
    []
  match current with
  | some c => if c ∈ cams then cams else cams ++ [c]
  | none => cams

/-- Python `int(x)` on a real value: truncation toward zero. -/
def pyTrunc (q : ℚ) : ℤ := if 0 ≤ q then ⌊q⌋ else -⌊-q⌋

/-- Python `round(x)` on a real value: nearest integer, ties to even. -/
def pyRound (q : ℚ) : ℤ :=
  if q - (⌊q⌋ : ℚ) < 1/2 then ⌊q⌋
  else if 1/2 < q - (⌊q⌋ : ℚ) then ⌊q⌋ + 1
  else if ⌊q⌋ % 2 = 0 then ⌊q⌋
  else ⌊q⌋ + 1

/-- Python `min(a, b)` on integers (first argument on ties). -/
def pymin (a b : ℤ) : ℤ := if a ≤ b then a else b

/-- Python `max(a, b)` on integers (first argument on ties). -/
def pymax (a b : ℤ) : ℤ := if b ≤ a then a else b

/-- The smoothed face estimate `(smooth_cx, smooth_cy, smooth_size)`. -/
structure Estimate where
  cx : ℚ
  cy : ℚ
  size : ℚ
deriving DecidableEq

/-- Crop planning (lines 629-663): from the frame dimensions `h × w`, the
optional smoothed estimate and the margin factor, compute the square region
`(top-left x, top-left y, side)` that the loop slices out of the frame.
With no estimate this is the centered square of side `min h w`; otherwise
the side is `int(smooth_size * margin)` clamped to `[50, min h w]` and the
top-left corner is shifted to keep the square inside the frame. -/
def planRegion (h w : ℤ) (est : Option Estimate) (margin : ℚ) : ℤ × ℤ × ℤ :=
  match est with
  | none =>
    let size := pymin h w
    let x0 := (w - size).fdiv 2
    let y0 := (h - size).fdiv 2
    (x0, y0, size)
  | some e =>
    let maxSquare := pymin h w
    let desired := pyTrunc (e.size * margin)
    let size := pymax 50 (pymin desired maxSquare)
    let cx := pyRound e.cx
    let cy := pyRound e.cy
    let x1 := cx - size.fdiv 2
    let y1 := cy - size.fdiv 2
    let x1 := if x1 < 0 then 0 else x1
    let y1 := if y1 < 0 then 0 else y1
    let x1 := if x1 + size > w then w - size else x1
    let y1 := if y1 + size > h then h - size else y1
    (x1, y1, size)

/-- Length of the slice `a:b` on a numpy axis of length `n` (negative
endpoints count from the end, everything is clamped to the axis). -/
def sliceLen (n a b : ℤ) : ℤ :=
  let start := if a < 0 then pymax (n + a) 0 else pymin a n
  let stop := if b < 0 then pymax (n + b) 0 else pymin b n
  pymax (stop - start) 0

/-- Dimensions `(height, width)` of the centered square crop
`frame[y0:y0+size, x0:x0+size]` with `size = min h w` (lines 631-636 and
the fallback at lines 672-675). -/
def centeredCropDims (h w : ℤ) : ℤ × ℤ :=
  let size := pymin h w
  let x0 := (w - size).fdiv 2
  let y0 := (h - size).fdiv 2
  (sliceLen h y0 (y0 + size), sliceLen w x0 (x0 + size))

/-- Dimensions `(height, width)` of the crop actually selected before the
`cv2.resize` to 640×640 (lines 629-676): the planned square slice, replaced
by the centered crop when the sliced array is empty or non-square. -/
def selectCrop (h w : ℤ) (est : Option Estimate) (margin : ℚ) : ℤ × ℤ :=
  match est with
  | none => centeredCropDims h w
  | some e =>
    let r := planRegion h w (some e) margin
    let x1 := r.1
    let y1 := r.2.1
    let size := r.2.2
    let ch := sliceLen h y1 (y1 + size)
    let cw := sliceLen w x1 (x1 + size)
    if ch * cw = 0 ∨ ch ≠ cw then centeredCropDims h w else (ch, cw)

/-- One EMA blending step (lines 621-623):
each component becomes `(1 - alpha) * old + alpha * new`. -/
def emaUpdate (alpha : ℚ) (old det : Estimate) : Estimate :=
  ⟨(1 - alpha) * old.cx + alpha * det.cx,
   (1 - alpha) * old.cy + alpha * det.cy,
   (1 - alpha) * old.size + alpha * det.size⟩

/-- The smoothed estimate after a detection (lines 617-623): initialized to
the raw detection when absent, otherwise blended by `emaUpdate`. -/
def nextSmooth (alpha : ℚ) (prev : Option Estimate) (det : Estimate) : Estimate :=
  match prev with
  | none => det
  | some p => emaUpdate alpha p det

/-- Squared Euclidean distance between the centers of two estimates. -/
def dist2 (e t : Estimate) : ℚ := (e.cx - t.cx) ^ 2 + (e.cy - t.cy) ^ 2

/-- A raw face detection box `(x, y, w, h)`. -/
structure RawFace where
  x : ℤ
  y : ℤ
  w : ℤ
  h : ℤ
deriving DecidableEq

/-- Largest-area face, first of the maxima
(Python `max(faces, key=lambda f: f[2]*f[3])`, line 612). -/
def bestFace (f0 : RawFace) (rest : List RawFace) : RawFace :=
  rest.foldl (fun b f => if f.w * f.h > b.w * b.h then f else b) f0

/-- Raw estimate derived from a detection box (lines 612-615):
center `(x + w//2, y + h//2)` and size `max w h`. -/
def rawEstimate (f : RawFace) : Estimate :=
  ⟨((f.x + f.w.fdiv 2 : ℤ) : ℚ), ((f.y + f.h.fdiv 2 : ℤ) : ℚ), ((pymax f.w f.h : ℤ) : ℚ)⟩

/-- Typed view of the configuration as read by `camera_loop` each
iteration (lines 556-600): a well-typed snapshot of the five fields. -/
structure ConfigV where
  camera_index : Option ℤ
  orientation : String
  detection_every_n_frames : ℤ
  smoothing_alpha : ℚ
  margin_factor : ℚ
deriving DecidableEq

/-- Environment outcomes of one loop iteration: whether opening a newly
selected device succeeds, the captured frame dimensions `(h, w)` (`none`
models a failed `cap.read()`), and the detector output on this frame. -/
structure Events where
  openOk : Bool
  readFrame : Option (ℤ × ℤ)
  faces : List RawFace
deriving DecidableEq

/-- The loop-local state of `camera_loop` (lines 529-532): the smoothed
estimate, the frame counter, the camera index currently held, and whether
a capture device is open (`cap is not None`). -/
structure LoopState where
  smooth : Option Estimate
  frame_idx : ℤ
  current_cam_index : Option ℤ
  capOpen : Bool
deriving DecidableEq

/-- `apply_orientation` (lines 514-519) restricted to the frame dimensions:
a quarter turn in either direction swaps height and width. -/
def apply_orientation (s : String) (hw : ℤ × ℤ) : ℤ × ℤ :=
  if s = "cw" then (hw.2, hw.1)
  else if s = "ccw" then (hw.2, hw.1)
  else hw

/-- The read-and-process phase of one iteration (lines 588-680), restricted
to its effect on the loop state; the second component is the oriented frame
dimensions the crop is taken from when a frame was processed.  Detection
runs only when the incremented frame counter is divisible by
`max 1 detection_every_n_frames`; a nonempty face list then updates the
smoothed estimate via `nextSmooth`. -/
def readPhase (st : LoopState) (cfg : ConfigV) (ev : Events) :
    LoopState × Option (ℤ × ℤ) :=
  match ev.readFrame with
  | none => (st, none)
  | some hw =>
    let fi := st.frame_idx + 1
    let hw2 := apply_orientation cfg.orientation hw
    let detN := pymax 1 cfg.detection_every_n_frames
    let smooth :=
      if fi % detN = 0 then
        match ev.faces with
        | [] => st.smooth
        | f :: fs =>
          some (nextSmooth cfg.smoothing_alpha st.smooth (rawEstimate (bestFace f fs)))
      else st.smooth
    ({ st with frame_idx := fi, smooth := smooth }, some hw2)

/-- One iteration of the `while True` body of `camera_loop` (lines
555-680).  A changed `camera_index` releases the device, clears the
smoothed estimate, zeroes the frame counter and (for a non-null index)
attempts to reopen; otherwise the iteration proceeds to the read phase
whenever a device is open. -/
def cameraStep (st : LoopState) (cfg : ConfigV) (ev : Events) :
    LoopState × Option (ℤ × ℤ) :=
  if cfg.camera_index ≠ st.current_cam_index then
    let st2 : LoopState := ⟨none, 0, cfg.camera_index, false⟩
    match cfg.camera_index with
    | none => (st2, none)
    | some _ =>
      if ev.openOk then readPhase { st2 with capOpen := true } cfg ev
      else (st2, none)
  else if st.capOpen = false then (st, none)
  else readPhase st cfg ev

/-- A POST body for `/api/config`: any subset of the five fields, with
arbitrary JSON values. -/
structure Payload where
  camera_index : Option JVal
  orientation : Option JVal
  detection_every_n_frames : Option JVal
  smoothing_alpha : Option JVal
  margin_factor : Option JVal
deriving DecidableEq

/-- Python `isinstance(v, int)` (true for booleans as well). -/
def isPyInt : JVal → Bool
  | .jint _ => true
  | .jbool _ => true
  | _ => false

/-- ASCII whitespace stripped by Python string-to-number conversion. -/
def isSpaceChar (c : Char) : Bool :=
  c = ' ' || c = '\t' || c = '\n' || c = '\r' || c = '\x0b' || c = '\x0c'

/-- Strip leading and trailing whitespace characters. -/
def stripWs (l : List Char) : List Char :=
  ((l.dropWhile isSpaceChar).reverse.dropWhile isSpaceChar).reverse

/-- Consume an optional leading sign; the boolean is true for minus. -/
def parseSign : List Char → Bool × List Char
  | '-' :: rest => (true, rest)
  | '+' :: rest => (false, rest)
  | l => (false, l)

/-- Continue a digit run: single underscores are allowed between digits
(Python numeric-literal grouping); returns the accumulated value, the
number of digits read, and the unconsumed remainder. -/
def parseRunUGo : List Char → ℕ → ℕ → Option (ℕ × ℕ × List Char)
  | '_' :: c :: rest, acc, k =>
    if c.isDigit then parseRunUGo rest (acc * 10 + (c.toNat - 48)) (k + 1) else none
  | c :: rest, acc, k =>
    if c.isDigit then parseRunUGo rest (acc * 10 + (c.toNat - 48)) (k + 1)
    else some (acc, k, c :: rest)
  | [], acc, k => some (acc, k, [])

/-- A nonempty digit run with underscore grouping. -/
def parseRunU : List Char → Option (ℕ × ℕ × List Char)
  | c :: rest => if c.isDigit then parseRunUGo rest (c.toNat - 48) 1 else none
  | [] => none

/-- Python `int(s)` on a string: optional whitespace, optional sign, then a
digit run; anything else (including a fractional literal such as "5.5")
raises, modelled as `none`.  Unicode digits and whitespace are not
modelled. -/
def pyIntStr (s : String) : Option ℤ :=
  let p := parseSign (stripWs s.data)
  match parseRunU p.2 with
  | some (n, _, []) => some (if p.1 then -(n : ℤ) else (n : ℤ))
  | _ => none

/-- The mantissa of a Python float literal: `digits [. [digits]]` or
`. digits`, with underscore grouping. -/
def parseMantissa : List Char → Option (ℚ × List Char)
  | '.' :: rest =>
    (match parseRunU rest with
     | some (f, k, rest2) => some ((f : ℚ) / 10 ^ k, rest2)
     | none => none)
  | l =>
    match parseRunU l with
    | some (n, _, rest) =>
      match rest with
      | '.' :: rest2 =>
        (match parseRunU rest2 with
         | some (f, k, rest3) => some ((n : ℚ) + (f : ℚ) / 10 ^ k, rest3)
         | none => some ((n : ℚ), rest2))
      | _ => some ((n : ℚ), rest)
    | none => none

/-- An optional exponent part `(e|E) [sign] digits`, which must end the
literal. -/
def parseExp : List Char → Option ℤ
  | [] => some 0
  | c :: rest =>
    if c = 'e' || c = 'E' then
      let p := parseSign rest
      match parseRunU p.2 with
      | some (n, _, []) => some (if p.1 then -(n : ℤ) else (n : ℤ))
      | _ => none
    else none

/-- Python `float(s)` on a string, restricted to finite decimal literals:
optional whitespace and sign, mantissa, optional exponent, the value taken
exactly as a rational.  The non-finite spellings (`inf`, `infinity`,
`nan`), which Python converts to non-finite floats with no rational value,
and unicode digits/whitespace are outside the modelled domain and map to
`none`; theorems below never assert a drop for the non-finite spellings
(they are fenced off by `isInfNanStr`). -/
def pyFloatStr (s : String) : Option ℚ :=
  let p := parseSign (stripWs s.data)
  match parseMantissa p.2 with
  | some (m, rest) =>
    match parseExp rest with
    | some e => some ((if p.1 then -m else m) * 10 ^ e)
    | none => none
  | none => none

/-- Python `int(v)` as used at line 483: succeeds on ints, booleans, reals
(truncating) and integer-numeral strings, fails (raises) on null and on
non-numeral strings. -/
def pyInt : JVal → Option ℤ
  | .jint n => some n
  | .jbool b => some (if b then 1 else 0)
  | .jnum q => some (pyTrunc q)
  | .jstr s => pyIntStr s
  | .jnull => none

/-- Python `float(v)` as used at lines 491 and 499: succeeds on ints,
booleans, reals and finite decimal-numeral strings, fails (raises) on null
and on non-numeral strings (see `pyFloatStr` for the non-finite
spellings). -/
def pyFloat : JVal → Option ℚ
  | .jint n => some (n : ℚ)
  | .jbool b => some (if b then 1 else 0)
  | .jnum q => some q
  | .jstr s => pyFloatStr s
  | .jnull => none

/-- The membership test `v in ("none", "cw", "ccw")` at line 479. -/
def orientOk : JVal → Bool
  | .jstr s => s == "none" || s == "cw" || s == "ccw"
  | _ => false

/-- Contribution of `camera_index` to the `changes` dict (lines 474-477). -/
def cameraChanges (p : Payload) : List (String × JVal) :=
  match p.camera_index with
  | some v => if isPyInt v then [("camera_index", v)] else []
  | none => []

/-- Contribution of `orientation` to the `changes` dict (lines 478-480). -/
def orientChanges (p : Payload) : List (String × JVal) :=
  match p.orientation with
  | some v => if orientOk v then [("orientation", v)] else []
  | none => []

/-- Contribution of `detection_every_n_frames` to the `changes` dict
(lines 481-488): coerced with `int`, floored at 1, dropped if coercion
fails. -/
def detChanges (p : Payload) : List (String × JVal) :=
  match p.detection_every_n_frames with
  | some v =>
    match pyInt v with
    | some n => [("detection_every_n_frames", .jint (if n < 1 then 1 else n))]
    | none => []
  | none => []

/-- Contribution of `smoothing_alpha` to the `changes` dict (lines
489-496): coerced with `float`, floored at 0.01 when nonpositive, dropped
if coercion fails. -/
def alphaChanges (p : Payload) : List (String × JVal) :=
  match p.smoothing_alpha with
  | some v =>
    match pyFloat v with
    | some a => [("smoothing_alpha", .jnum (if a ≤ 0 then 1/100 else a))]
    | none => []
  | none => []

/-- Contribution of `margin_factor` to the `changes` dict (lines 497-504):
coerced with `float`, floored at 1.0, dropped if coercion fails. -/
def marginChanges (p : Payload) : List (String × JVal) :=
  match p.margin_factor with
  | some v =>
    match pyFloat v with
    | some m => [("margin_factor", .jnum (if m < 1 then 1 else m))]
    | none => []
  | none => []

/-- The full `changes` dict built by the POST handler (lines 473-504), in
insertion order. -/
def changesOf (p : Payload) : List (String × JVal) :=
  cameraChanges p ++ orientChanges p ++ detChanges p ++ alphaChanges p ++ marginChanges p

/-- `POST /api/config` followed by `GET` (lines 464-509): validate the
payload into `changes`, apply them through `update_config`, and return the
resulting snapshot. -/
def api_config_post (c : ConfigDict) (p : Payload) : ConfigDict :=
  update_config (changesOf p) c

/-! ### Helper lemmas -/

theorem pymin_eq (a b : ℤ) : pymin a b = min a b := by
  unfold pymin; split <;> omega

theorem pymax_eq (a b : ℤ) : pymax a b = max a b := by
  unfold pymax; split <;> omega

theorem fdiv_two_eq (a : ℤ) : a.fdiv 2 = a / 2 := Int.fdiv_eq_ediv a (by decide)

theorem pyTrunc_eval (q : ℚ) (f : ℤ) (h0 : 0 ≤ (f : ℚ)) (h1 : (f : ℚ) ≤ q)
    (h2 : q < (f : ℚ) + 1) : pyTrunc q = f := by
  have hq : 0 ≤ q := le_trans h0 h1
  have hf : ⌊q⌋ = f := Int.floor_eq_iff.mpr ⟨h1, by linarith⟩
  simp [pyTrunc, hq, hf]

theorem pyRound_eval_lo (q : ℚ) (f : ℤ) (h1 : (f : ℚ) ≤ q) (h2 : q < (f : ℚ) + 1/2) :
    pyRound q = f := by
  have hf : ⌊q⌋ = f := Int.floor_eq_iff.mpr ⟨h1, by linarith⟩
  unfold pyRound
  rw [hf, if_pos (by linarith)]

theorem pyRound_eval_hi (q : ℚ) (f : ℤ) (h1 : (f : ℚ) + 1/2 < q) (h2 : q < (f : ℚ) + 1) :
    pyRound q = f + 1 := by
  have hf : ⌊q⌋ = f := Int.floor_eq_iff.mpr ⟨by linarith, by linarith⟩
  unfold pyRound
  rw [hf, if_neg (by linarith), if_pos (by linarith)]

/-! ### C2: bounds of the planned crop region -/

/-- C2 (amended): for every frame with `min h w ≥ 50`, every estimate
(present or absent) and every margin factor, the planned region is square
(a single side is returned), lies fully inside `[0, w) × [0, h)`, and its
side is between 50 and `min h w`.  (The unamended claim, quantifying over
all frame dimensions, fails for frames smaller than 50 pixels; see the
counterexample.) -/
theorem c2_plan_region_bounds (h w : ℤ) (est : Option Estimate) (margin : ℚ)
    (hmin : 50 ≤ min h w) :
    0 ≤ (planRegion h w est margin).1 ∧
    0 ≤ (planRegion h w est margin).2.1 ∧
    (planRegion h w est margin).1 + (planRegion h w est margin).2.2 ≤ w ∧
    (planRegion h w est margin).2.1 + (planRegion h w est margin).2.2 ≤ h ∧
    50 ≤ (planRegion h w est margin).2.2 ∧
    (planRegion h w est margin).2.2 ≤ min h w := by
  cases est with
  | none =>
    simp only [planRegion, pymin_eq, fdiv_two_eq]
    omega
  | some e =>
    simp only [planRegion, pymin_eq, pymax_eq, fdiv_two_eq]
    generalize pyTrunc (e.size * margin) = d
    generalize pyRound e.cx = a
    generalize pyRound e.cy = b
    split_ifs <;> omega

/-- Witness for C2 at a concrete frame and absent estimate. -/
theorem c2_witness :
    0 ≤ (planRegion 480 640 none 1).1 ∧
    0 ≤ (planRegion 480 640 none 1).2.1 ∧
    (planRegion 480 640 none 1).1 + (planRegion 480 640 none 1).2.2 ≤ 640 ∧
    (planRegion 480 640 none 1).2.1 + (planRegion 480 640 none 1).2.2 ≤ 480 ∧
    50 ≤ (planRegion 480 640 none 1).2.2 ∧
    (planRegion 480 640 none 1).2.2 ≤ min 480 640 :=
  c2_plan_region_bounds 480 640 none 1 (by omega)

/-- C2 counterexample: on a 40×40 frame with a present estimate the planned
region has top-left (-10, -10) and side 50, so it neither stays inside the
frame nor respects the `min h w` side bound. -/
theorem c2_counterexample :
    planRegion 40 40 (some ⟨20, 20, 10⟩) 1 = (-10, -10, 50) ∧
    ¬ (0 ≤ (planRegion 40 40 (some ⟨20, 20, 10⟩) 1).1) ∧
    ¬ ((planRegion 40 40 (some ⟨20, 20, 10⟩) 1).2.2 ≤ min 40 40) := by
  have hT : pyTrunc ((10 : ℚ) * 1) = 10 :=
    pyTrunc_eval _ _ (by norm_num) (by norm_num) (by norm_num)
  have hR : pyRound (20 : ℚ) = 20 :=
    pyRound_eval_lo _ _ (by norm_num) (by norm_num)
  have hmain : planRegion 40 40 (some ⟨20, 20, 10⟩) 1 = (-10, -10, 50) := by
    dsimp only [planRegion]
    rw [hT, hR]
    decide
  refine ⟨hmain, ?_, ?_⟩ <;> rw [hmain] <;> simp

/-! ### C9: the selected crop is always square and non-empty -/

theorem sliceLen_nonneg (n a b : ℤ) : 0 ≤ sliceLen n a b := by
  simp only [sliceLen, pymax_eq, pymin_eq]
  split_ifs <;> omega

theorem centeredCropDims_eq (h w : ℤ) (hh : 1 ≤ h) (hw : 1 ≤ w) :
    centeredCropDims h w = (min h w, min h w) := by
  simp only [centeredCropDims, sliceLen, pymax_eq, pymin_eq, fdiv_two_eq, Prod.mk.injEq]
  split_ifs <;> omega

/-- C9: as long as the frame is non-degenerate, the crop the loop hands to
the resize step is square and non-empty (either the planned slice passed
the squareness check, or the centered fallback replaced it), so the resize
to the fixed 640×640 output always receives a valid square image. -/
theorem c9_selected_crop_square (h w : ℤ) (est : Option Estimate) (margin : ℚ)
    (hh : 1 ≤ h) (hw : 1 ≤ w) :
    ∃ s, 1 ≤ s ∧ selectCrop h w est margin = (s, s) := by
  have hc : centeredCropDims h w = (min h w, min h w) := centeredCropDims_eq h w hh hw
  cases est with
  | none => exact ⟨min h w, by omega, hc⟩
  | some e =>
    simp only [selectCrop]
    split_ifs with hP
    · exact ⟨min h w, by omega, hc⟩
    · push_neg at hP
      obtain ⟨hne, heq⟩ := hP
      refine ⟨sliceLen h (planRegion h w (some e) margin).2.1
        ((planRegion h w (some e) margin).2.1 + (planRegion h w (some e) margin).2.2), ?_, ?_⟩
      · have h0 := sliceLen_nonneg h (planRegion h w (some e) margin).2.1
          ((planRegion h w (some e) margin).2.1 + (planRegion h w (some e) margin).2.2)
        have hz : sliceLen h (planRegion h w (some e) margin).2.1
            ((planRegion h w (some e) margin).2.1 + (planRegion h w (some e) margin).2.2) ≠ 0 := by
          intro h0eq
          exact hne (by rw [h0eq, zero_mul])
        omega
      · rw [heq]

/-- Witness for C9 on a concrete 480×640 frame with no estimate. -/
theorem c9_witness : ∃ s, 1 ≤ s ∧ selectCrop 480 640 none 1 = (s, s) :=
  c9_selected_crop_square 480 640 none 1 (by norm_num) (by norm_num)

/-! ### C8: EMA contraction toward a constant detection -/

/-- C8 (amended): while `alpha ∈ (0, 1)`, each EMA step strictly decreases
the squared distance from the smoothed center to a constant target
detection, provided that distance is nonzero.  (The unamended claim also
asserts strict decrease when the estimate already coincides with the
target, where the distance stays 0; see the counterexample.) -/
theorem c8_ema_strict_decrease (a : ℚ) (prev t : Estimate) (ha0 : 0 < a) (ha1 : a < 1)
    (hd : 0 < dist2 prev t) :
    dist2 (emaUpdate a prev t) t < dist2 prev t := by
  have hkey : dist2 (emaUpdate a prev t) t = (1 - a) ^ 2 * dist2 prev t := by
    simp only [dist2, emaUpdate]
    ring
  rw [hkey]
  nlinarith [mul_pos (mul_pos hd ha0) (show (0 : ℚ) < 2 - a by linarith)]

/-- C8 counterexample: when the smoothed estimate already equals the
constant detection, the EMA step leaves the distance at 0, so it does not
strictly decrease. -/
theorem c8_counterexample :
    ¬ (dist2 (emaUpdate (1/2) ⟨320, 240, 100⟩ ⟨320, 240, 100⟩) ⟨320, 240, 100⟩ <
        dist2 ⟨320, 240, 100⟩ ⟨320, 240, 100⟩) := by
  norm_num [dist2, emaUpdate]

/-- Witness for C8 with a nonzero initial distance. -/
theorem c8_witness :
    dist2 (emaUpdate (1/2) ⟨4, 0, 10⟩ ⟨0, 0, 10⟩) ⟨0, 0, 10⟩ <
      dist2 ⟨4, 0, 10⟩ ⟨0, 0, 10⟩ :=
  c8_ema_strict_decrease (1/2) ⟨4, 0, 10⟩ ⟨0, 0, 10⟩ (by norm_num) (by norm_num)
    (by norm_num [dist2])

/-! ### C7: persist / load round trip -/

/-- C7 (amended): reloading a persisted snapshot over any prior dictionary
restores the snapshot exactly, except that on Linux a persisted camera
index equal to 0 is cleared to null.  (The unamended claim asserts identity
for every snapshot; see the counterexample.) -/
theorem c7_roundtrip (isLinux : Bool) (c0 c : ConfigDict) :
    load_persisted_config isLinux (persist_config c) c0 =
      if isLinux && pyEqZero c.camera_index then { c with camera_index := .jnull } else c := by
  have hm : update_config (persist_config c) c0 = c := rfl
  simp only [load_persisted_config, hm]

/-- C7 counterexample: on Linux, a snapshot with `camera_index = 0` does
not survive the persist/load round trip (the index is reset to null). -/
theorem c7_counterexample :
    load_persisted_config true
        (persist_config ⟨.jint 0, .jstr "none", .jint 10, .jnum 2, .jnum 3⟩)
        ⟨.jint 0, .jstr "none", .jint 10, .jnum 2, .jnum 3⟩ ≠
      ⟨.jint 0, .jstr "none", .jint 10, .jnum 2, .jnum 3⟩ := by decide

/-! ### C10: the store layer performs no validation -/

/-- C10: `update_config` stores whatever value is supplied for each of the
five recognized keys, ignores unrecognized keys, and startup loading copies
persisted values verbatim for recognized keys, with the single exception of
clearing a zero camera index on Linux. -/
theorem c10_store_no_validation (c : ConfigDict) (v : JVal) (k : String)
    (hk : k ∉ CONFIG_KEYS) :
    update_config [("camera_index", v)] c = { c with camera_index := v } ∧
    update_config [("orientation", v)] c = { c with orientation := v } ∧
    update_config [("detection_every_n_frames", v)] c = { c with detection_every_n_frames := v } ∧
    update_config [("smoothing_alpha", v)] c = { c with smoothing_alpha := v } ∧
    update_config [("margin_factor", v)] c = { c with margin_factor := v } ∧
    update_config [(k, v)] c = c ∧
    (∀ isLinux : Bool, ¬ (isLinux = true ∧ pyEqZero c.camera_index = true) →
      load_persisted_config isLinux [("smoothing_alpha", v)] c = { c with smoothing_alpha := v }) ∧
    (pyEqZero v = true → load_persisted_config true [("camera_index", v)] c = { c with camera_index := .jnull }) := by
  simp only [CONFIG_KEYS, List.mem_cons, List.not_mem_nil, or_false] at hk
  push_neg at hk
  obtain ⟨k1, k2, k3, k4, k5⟩ := hk
  refine ⟨by simp [update_config, setKey], by simp [update_config, setKey],
    by simp [update_config, setKey], by simp [update_config, setKey],
    by simp [update_config, setKey], ?_, ?_, ?_⟩
  · simp only [update_config, List.foldl_cons, List.foldl_nil, setKey]
    split_ifs <;> simp_all
  · intro isLinux hlin
    cases isLinux with
    | false => simp [load_persisted_config, update_config, setKey]
    | true =>
      simp only [true_and, Bool.not_eq_true] at hlin
      simp [load_persisted_config, update_config, setKey, hlin]
  · intro hz
    simp [load_persisted_config, update_config, setKey, hz]

/-! ### C3: camera enumeration -/

theorem list_cameras_fold_mem (current : Option ℤ) (openOk readOk : ℕ → Bool)
    (l : List ℕ) :
    ∀ (acc : List ℤ) (x : ℤ),
      x ∈ l.foldl (fun (cams : List ℤ) (i : ℕ) =>
        if current = some (i : ℤ) then
          (if (i : ℤ) ∈ cams then cams else cams ++ [(i : ℤ)])
        else if openOk i && readOk i then cams ++ [(i : ℤ)]
        else cams) acc →
      x ∈ acc ∨ ∃ i ∈ l, x = (i : ℤ) := by
  induction l with
  | nil =>
    intro acc x hx
    exact Or.inl hx
  | cons j t ih =>
    intro acc x hx
    simp only [List.foldl_cons] at hx
    rcases ih _ x hx with hmem | ⟨i, hi, rfl⟩
    · split_ifs at hmem with h1 h2 h3
      · exact Or.inl hmem
      · rcases List.mem_append.mp hmem with h | h
        · exact Or.inl h
        · exact Or.inr ⟨j, List.mem_cons_self j t, List.mem_singleton.mp h⟩
      · rcases List.mem_append.mp hmem with h | h
        · exact Or.inl h
        · exact Or.inr ⟨j, List.mem_cons_self j t, List.mem_singleton.mp h⟩
      · exact Or.inl hmem
    · exact Or.inr ⟨i, List.mem_cons_of_mem j hi, rfl⟩

theorem mem_if_mem_append (c : ℤ) (cams : List ℤ) :
    c ∈ (if c ∈ cams then cams else cams ++ [c]) := by
  split_ifs with h
  · exact h
  · simp

theorem mem_if_append_cases (x c : ℤ) (cams : List ℤ)
    (hx : x ∈ (if c ∈ cams then cams else cams ++ [c])) : x ∈ cams ∨ x = c := by
  split_ifs at hx with h
  · exact Or.inl hx
  · rcases List.mem_append.mp hx with h2 | h2
    · exact Or.inl h2
    · exact Or.inr (List.mem_singleton.mp h2)

/-- C3 (amended): once a camera index is selected, it always appears in the
enumeration result regardless of probe outcomes; and on Linux the reserved
loopback index 0 can appear only when it is itself the selected index (a
probe never adds it).  (The unamended claim asserts index 0 never appears
at all; see the counterexample.) -/
theorem c3_enumeration (isLinux : Bool) (max_index : ℕ) (current : Option ℤ)
    (openOk readOk : ℕ → Bool) :
    (∀ c, current = some c →
      c ∈ list_cameras isLinux max_index current openOk readOk) ∧
    (isLinux = true →
      (0 : ℤ) ∈ list_cameras isLinux max_index current openOk readOk →
      current = some 0) := by
  constructor
  · intro c hc
    subst hc
    simp only [list_cameras]
    exact mem_if_mem_append c _
  · intro hLin h0
    subst hLin
    simp only [list_cameras, if_pos rfl] at h0
    have hrange : ∀ x : ℤ,
        x ∈ (List.range' 1 (max_index - 1)).foldl (fun (cams : List ℤ) (i : ℕ) =>
          if current = some (i : ℤ) then
            (if (i : ℤ) ∈ cams then cams else cams ++ [(i : ℤ)])
          else if openOk i && readOk i then cams ++ [(i : ℤ)]
          else cams) [] → 1 ≤ x := by
      intro x hx
      rcases list_cameras_fold_mem current openOk readOk _ _ x hx with h | ⟨i, hi, rfl⟩
      · simp at h
      · have := List.mem_range'_1.mp hi
        omega
    cases current with
    | none =>
      dsimp only at h0
      exact absurd (hrange 0 h0) (by norm_num)
    | some c =>
      dsimp only at h0
      rcases mem_if_append_cases 0 c _ h0 with h | h
      · exact absurd (hrange 0 h) (by norm_num)
      · rw [← h]

/-- C3 counterexample: on Linux with the selected index 0 (reachable, since
the POST handler accepts any integer), index 0 appears in the enumeration
result even though it is the reserved loopback index. -/
theorem c3_counterexample :
    (0 : ℤ) ∈ list_cameras true 10 (some 0) (fun _ => false) (fun _ => false) := by
  decide

/-- Witness for C3: a selected index appears in the result even when every
probe fails. -/
theorem c3_witness :
    (2 : ℤ) ∈ list_cameras false 5 (some 2) (fun _ => false) (fun _ => false) :=
  (c3_enumeration false 5 (some 2) (fun _ => false) (fun _ => false)).1 2 rfl

/-! ### C1: orientation changes and the smoothed estimate -/

/-- C1 (amended): when the configured camera index equals the one already
held, an iteration of the loop never releases or reopens the capture
device and never clears an existing smoothed estimate — in particular a
configuration that differs only in orientation leaves the estimate in
place.  (The unamended claim asserts the estimate is reset on an
orientation change; see the counterexample.) -/
theorem c1_orientation_no_reset (st : LoopState) (cfg : ConfigV) (ev : Events)
    (hsame : cfg.camera_index = st.current_cam_index) :
    (cameraStep st cfg ev).1.capOpen = st.capOpen ∧
    (cameraStep st cfg ev).1.current_cam_index = st.current_cam_index ∧
    ((cameraStep st cfg ev).1.smooth = none → st.smooth = none) := by
  have hne : ¬ (cfg.camera_index ≠ st.current_cam_index) := by simp [hsame]
  simp only [cameraStep, if_neg hne]
  by_cases hcap : st.capOpen = false
  · simp [hcap]
  · simp only [if_neg hcap]
    unfold readPhase
    cases hev : ev.readFrame with
    | none => simp
    | some hw =>
      dsimp only
      refine ⟨rfl, rfl, ?_⟩
      intro hs
      split at hs
      · split at hs
        · exact hs
        · exact (Option.some_ne_none _ hs).elim
      · exact hs

/-- C1 counterexample: a configuration whose orientation is `cw` while the
loop previously ran with orientation `none` (the loop stores no previous
orientation at all), with an unchanged camera index, processes the next
frame without clearing the smoothed estimate. -/
theorem c1_counterexample :
    (cameraStep ⟨some ⟨320, 240, 100⟩, 5, some 2, true⟩ ⟨some 2, "cw", 10, 1/50, 14/5⟩
        ⟨true, some (480, 640), []⟩).1.smooth = some ⟨320, 240, 100⟩ ∧
    (cameraStep ⟨some ⟨320, 240, 100⟩, 5, some 2, true⟩ ⟨some 2, "cw", 10, 1/50, 14/5⟩
        ⟨true, some (480, 640), []⟩).1.smooth ≠ none := by decide

/-- Witness for C1 at a concrete state with an open device. -/
theorem c1_witness :
    (cameraStep ⟨some ⟨10, 10, 60⟩, 3, some 1, true⟩ ⟨some 1, "ccw", 5, 1/10, 2⟩
        ⟨true, none, []⟩).1.capOpen = true ∧
    (cameraStep ⟨some ⟨10, 10, 60⟩, 3, some 1, true⟩ ⟨some 1, "ccw", 5, 1/10, 2⟩
        ⟨true, none, []⟩).1.current_cam_index = some 1 ∧
    ((cameraStep ⟨some ⟨10, 10, 60⟩, 3, some 1, true⟩ ⟨some 1, "ccw", 5, 1/10, 2⟩
        ⟨true, none, []⟩).1.smooth = none → (some (⟨10, 10, 60⟩ : Estimate) : Option Estimate) = none) :=
  c1_orientation_no_reset ⟨some ⟨10, 10, 60⟩, 3, some 1, true⟩ ⟨some 1, "ccw", 5, 1/10, 2⟩
    ⟨true, none, []⟩ rfl

/-! ### C4: exact crop arithmetic -/

/-- From the spec's words: the claimed desired-size formula
"round(estimate.size * margin_factor)" (the code actually truncates). -/
def specDesiredSize (size margin : ℚ) : ℤ := pyRound (size * margin)

/-- From the spec's words: the claimed top-left formula "(center - size/2)
rounded to nearest integer" (the code actually rounds the center first and
subtracts `size // 2`). -/
def specTopLeft (center : ℚ) (size : ℤ) : ℤ := pyRound (center - (size : ℚ) / 2)

/-- C4 (amended): the concrete 480×640 scenario yields desired size 280,
clamped size 280 and region (180, 100, 280); and in general the planned
side equals `int(estimate.size * margin)` (truncation) clamped to
`[50, min h w]`, with top-left `round(center) - side // 2` whenever that
corner needs no in-frame clamping.  (The spec's `round(...)` desired-size
and `round(center - size/2)` top-left formulas disagree with the code; see
the counterexample.) -/
theorem c4_crop_arithmetic :
    planRegion 480 640 (some ⟨320, 240, 100⟩) (14/5) = (180, 100, 280) ∧
    (∀ (h w : ℤ) (e : Estimate) (margin : ℚ) (d : ℤ),
      d = pymax 50 (pymin (pyTrunc (e.size * margin)) (pymin h w)) →
      0 ≤ pyRound e.cx - d.fdiv 2 → pyRound e.cx - d.fdiv 2 + d ≤ w →
      0 ≤ pyRound e.cy - d.fdiv 2 → pyRound e.cy - d.fdiv 2 + d ≤ h →
      planRegion h w (some e) margin =
        (pyRound e.cx - d.fdiv 2, pyRound e.cy - d.fdiv 2, d)) := by
  constructor
  · have hT : pyTrunc ((100 : ℚ) * (14/5)) = 280 :=
      pyTrunc_eval _ _ (by norm_num) (by norm_num) (by norm_num)
    have hRx : pyRound (320 : ℚ) = 320 := pyRound_eval_lo _ _ (by norm_num) (by norm_num)
    have hRy : pyRound (240 : ℚ) = 240 := pyRound_eval_lo _ _ (by norm_num) (by norm_num)
    dsimp only [planRegion]
    rw [hT, hRx, hRy]
    decide
  · intro h w e margin d hd h1 h2 h3 h4
    subst hd
    dsimp only [planRegion]
    revert h1 h2 h3 h4
    simp only [pymin_eq, pymax_eq, fdiv_two_eq]
    generalize pyTrunc (e.size * margin) = t
    generalize pyRound e.cx = a
    generalize pyRound e.cy = b
    intro h1 h2 h3 h4
    split_ifs <;> simp only [Prod.mk.injEq] <;> omega

/-- Witness for C4's general clamping characterization at a concrete
unclamped instance. -/
theorem c4_witness : planRegion 480 640 (some ⟨100, 100, 20⟩) 1 = (75, 75, 50) := by
  have hT : pyTrunc ((20 : ℚ) * 1) = 20 :=
    pyTrunc_eval _ _ (by norm_num) (by norm_num) (by norm_num)
  have hR : pyRound (100 : ℚ) = 100 := pyRound_eval_lo _ _ (by norm_num) (by norm_num)
  have hd : (50 : ℤ) = pymax 50 (pymin (pyTrunc ((⟨100, 100, 20⟩ : Estimate).size * 1)) (pymin 480 640)) := by
    show (50 : ℤ) = pymax 50 (pymin (pyTrunc ((20 : ℚ) * 1)) (pymin 480 640))
    rw [hT]
    decide
  have happ := c4_crop_arithmetic.2 480 640 ⟨100, 100, 20⟩ 1 50 hd
    (by show (0 : ℤ) ≤ pyRound (100 : ℚ) - (50 : ℤ).fdiv 2; rw [hR]; decide)
    (by show pyRound (100 : ℚ) - (50 : ℤ).fdiv 2 + 50 ≤ 640; rw [hR]; decide)
    (by show (0 : ℤ) ≤ pyRound (100 : ℚ) - (50 : ℤ).fdiv 2; rw [hR]; decide)
    (by show pyRound (100 : ℚ) - (50 : ℤ).fdiv 2 + 50 ≤ 480; rw [hR]; decide)
  rw [happ]
  show (pyRound (100 : ℚ) - (50 : ℤ).fdiv 2, pyRound (100 : ℚ) - (50 : ℤ).fdiv 2, (50 : ℤ)) =
    (75, 75, 50)
  rw [hR]
  decide

/-- C4 counterexample: the code truncates `estimate.size * margin_factor`
where the spec says round (side 59 versus 60), and rounds the center before
subtracting half the side where the spec rounds `center - size/2`
(top-left 76 versus 75). -/
theorem c4_counterexample :
    (planRegion 480 640 (some ⟨320, 240, 20⟩) (597/200)).2.2 = 59 ∧
    pymax 50 (pymin (specDesiredSize 20 (597/200)) (pymin 480 640)) = 60 ∧
    (planRegion 480 640 (some ⟨503/5, 240, 30⟩) (17/10)).1 = 76 ∧
    specTopLeft (503/5) 51 = 75 := by
  have hT1 : pyTrunc ((20 : ℚ) * (597/200)) = 59 :=
    pyTrunc_eval _ _ (by norm_num) (by norm_num) (by norm_num)
  have hD1 : pyRound ((20 : ℚ) * (597/200)) = 60 := by
    have := pyRound_eval_hi ((20 : ℚ) * (597/200)) 59 (by norm_num) (by norm_num)
    omega
  have hT2 : pyTrunc ((30 : ℚ) * (17/10)) = 51 :=
    pyTrunc_eval _ _ (by norm_num) (by norm_num) (by norm_num)
  have hR3 : pyRound ((503 : ℚ)/5) = 101 := by
    have := pyRound_eval_hi ((503 : ℚ)/5) 100 (by norm_num) (by norm_num)
    omega
  refine ⟨?_, ?_, ?_, ?_⟩
  · dsimp only [planRegion]
    rw [hT1]
    decide
  · unfold specDesiredSize
    rw [hD1]
    decide
  · dsimp only [planRegion]
    rw [hT2, hR3]
    decide
  · show pyRound ((503 : ℚ)/5 - ((51 : ℤ) : ℚ) / 2) = 75
    exact pyRound_eval_lo _ _ (by norm_num) (by norm_num)

/-! ### C5: valid partial updates apply exactly -/

/-- C5: for every valid partial update (well-typed values, orientation in
the enum), applying the POST handler and reading the snapshot yields every
submitted field equal to its (possibly clamped) submitted value —
`detection_every_n_frames` floored at 1, `smoothing_alpha` at 0.01 when
nonpositive, `margin_factor` at 1.0 — and every non-submitted field
unchanged. -/
theorem c5_update_then_get (c : ConfigDict) (camU : Option ℤ) (oriU : Option String)
    (detU : Option ℤ) (alU marU : Option ℚ)
    (hori : ∀ s, oriU = some s → s = "none" ∨ s = "cw" ∨ s = "ccw") :
    api_config_post c
        ⟨camU.map .jint, oriU.map .jstr, detU.map .jint, alU.map .jnum, marU.map .jnum⟩ =
      { camera_index := camU.elim c.camera_index .jint,
        orientation := oriU.elim c.orientation .jstr,
        detection_every_n_frames :=
          detU.elim c.detection_every_n_frames (fun n => .jint (if n < 1 then 1 else n)),
        smoothing_alpha :=
          alU.elim c.smoothing_alpha (fun a => .jnum (if a ≤ 0 then 1/100 else a)),
        margin_factor :=
          marU.elim c.margin_factor (fun m => .jnum (if m < 1 then 1 else m)) } := by
  rcases oriU with _ | s
  · rcases camU with _ | n <;> rcases detU with _ | dn <;> rcases alU with _ | av <;>
      rcases marU with _ | mv <;>
      simp [api_config_post, changesOf, cameraChanges, orientChanges, detChanges,
        alphaChanges, marginChanges, update_config, setKey, isPyInt, pyInt, pyFloat]
  · rcases hori s rfl with rfl | rfl | rfl <;>
      (rcases camU with _ | n <;> rcases detU with _ | dn <;> rcases alU with _ | av <;>
        rcases marU with _ | mv <;>
        simp [api_config_post, changesOf, cameraChanges, orientChanges, detChanges,
          alphaChanges, marginChanges, update_config, setKey, isPyInt, pyInt, pyFloat,
          orientOk])

/-- Witness for C5 at a concrete snapshot and payload exercising every
clamp. -/
theorem c5_witness :
    api_config_post ⟨.jnull, .jstr "none", .jint 10, .jnum 2, .jnum 3⟩
        ⟨(some (3 : ℤ)).map .jint, (some "cw").map .jstr, (some (0 : ℤ)).map .jint,
         (some (-1 : ℚ)).map .jnum, (some (1/2 : ℚ)).map .jnum⟩ =
      { camera_index := (some (3 : ℤ)).elim (JVal.jnull) .jint,
        orientation := (some "cw").elim (.jstr "none") .jstr,
        detection_every_n_frames :=
          (some (0 : ℤ)).elim (.jint 10) (fun n => .jint (if n < 1 then 1 else n)),
        smoothing_alpha :=
          (some (-1 : ℚ)).elim (.jnum 2) (fun a => .jnum (if a ≤ 0 then 1/100 else a)),
        margin_factor :=
          (some (1/2 : ℚ)).elim (.jnum 3) (fun m => .jnum (if m < 1 then 1 else m)) } :=
  c5_update_then_get ⟨.jnull, .jstr "none", .jint 10, .jnum 2, .jnum 3⟩
    (some 3) (some "cw") (some 0) (some (-1)) (some (1/2))
    (fun s hs => by
      injection hs with h2
      exact Or.inr (Or.inl h2.symm))

/-! ### C6: invalid update fields -/

/-- Witness for C10: an unrecognized key is ignored by the store. -/
theorem c10_witness :
    update_config [("zzz", JVal.jstr "x")] ⟨.jnull, .jstr "none", .jint 10, .jnum 2, .jnum 3⟩ =
      ⟨.jnull, .jstr "none", .jint 10, .jnum 2, .jnum 3⟩ :=
  (c10_store_no_validation ⟨.jnull, .jstr "none", .jint 10, .jnum 2, .jnum 3⟩
    (.jstr "x") "zzz" (by decide)).2.2.2.2.2.1
